import Mathlib

/-!
A shallow embedding of the `cloudwatch-metrics` client library: the
`SummarySet` aggregator (`src/summarySet.js`) and the `Metric` buffering and
dispatch engine (`index.js`).

Modelling conventions:
* JavaScript numbers are modelled by `JVal`: an exact rational together with
  the non-finite values `Infinity`, `-Infinity` and `NaN` that the aggregator
  sentinels use.  Counts, which only ever go up by one from zero, are `ℕ`.
* The two `setInterval` timers are modelled as `Option Timer` fields holding
  a fresh numeric handle (`nextTimerId`) and the interval they were created
  with; `clearInterval` sets the field to `none`.
* Calls to `cloudwatch.send(new PutMetricDataCommand(...))` are modelled by
  appending a `Batch` to the `sentBatches` log; the asynchronous completion
  callback (`sendCallback`) carries no data relevant to the claims and is not
  modelled.
* The ES `Map` used for `_summaryData` is modelled as an association list in
  insertion order: `Map.get` is a lookup on the first component, `Map.set`
  replaces in place when the key is present and appends otherwise, and
  iteration over `values()` is iteration over the list.
* `new Date()` inside `_put` is modelled by an explicit `now : ℕ` argument.
-/

/-- A CloudWatch dimension `{Name, Value}`. -/
structure Dimension where
  Name : String
  Value : String
deriving DecidableEq, Repr

/-- A JavaScript number: an exact rational, `Infinity`, `-Infinity` or `NaN`.
Floating-point rounding is not modelled; the claims only involve exact
small values. -/
inductive JVal where
  | num (q : ℚ)
  | inf
  | negInf
  | nan
deriving DecidableEq, Repr

/-- `Math.min` on the modelled values (`NaN` is absorbing, as in JS). -/
def jmin : JVal → JVal → JVal
  | JVal.nan, _ => JVal.nan
  | _, JVal.nan => JVal.nan
  | JVal.negInf, _ => JVal.negInf
  | _, JVal.negInf => JVal.negInf
  | JVal.inf, b => b
  | a, JVal.inf => a
  | JVal.num a, JVal.num b => JVal.num (min a b)

/-- `Math.max` on the modelled values (`NaN` is absorbing, as in JS). -/
def jmax : JVal → JVal → JVal
  | JVal.nan, _ => JVal.nan
  | _, JVal.nan => JVal.nan
  | JVal.inf, _ => JVal.inf
  | _, JVal.inf => JVal.inf
  | JVal.negInf, b => b
  | a, JVal.negInf => a
  | JVal.num a, JVal.num b => JVal.num (max a b)

/-- JavaScript `+` on the modelled values (`Infinity + -Infinity` is `NaN`). -/
def jadd : JVal → JVal → JVal
  | JVal.nan, _ => JVal.nan
  | _, JVal.nan => JVal.nan
  | JVal.inf, JVal.negInf => JVal.nan
  | JVal.negInf, JVal.inf => JVal.nan
  | JVal.inf, _ => JVal.inf
  | _, JVal.inf => JVal.inf
  | JVal.negInf, _ => JVal.negInf
  | _, JVal.negInf => JVal.negInf
  | JVal.num a, JVal.num b => JVal.num (a + b)

/-- The `{Minimum, Maximum, Sum, SampleCount}` snapshot returned by
`SummarySet#peek` / `SummarySet#get`. -/
structure StatisticValues where
  Minimum : JVal
  Maximum : JVal
  Sum : JVal
  SampleCount : ℕ
deriving DecidableEq, Repr

/-- The `SummarySet` aggregator state (`src/summarySet.js`).  The constructor
stores the two sentinels and then calls `reset()`. -/
structure SummarySet where
  _minSentinel : JVal
  _maxSentinel : JVal
  _min : JVal
  _max : JVal
  _sum : JVal
  _count : ℕ
deriving DecidableEq, Repr

/-- `SummarySet#reset`: restore the running statistics to the sentinels. -/
def SummarySet.reset (s : SummarySet) : SummarySet :=
  { s with _min := s._minSentinel, _max := s._maxSentinel,
           _sum := JVal.num 0, _count := 0 }

/-- `new SummarySet({minSentinel, maxSentinel})`. -/
def SummarySet.new (minSentinel maxSentinel : JVal) : SummarySet :=
  SummarySet.reset
    { _minSentinel := minSentinel, _maxSentinel := maxSentinel,
      _min := minSentinel, _max := maxSentinel, _sum := JVal.num 0, _count := 0 }

/-- `new SummarySet()` with the default sentinels `Infinity` / `-Infinity`,
as constructed by `Metric#_summaryPut`. -/
def SummarySet.mkDefault : SummarySet :=
  SummarySet.new JVal.inf JVal.negInf

/-- `SummarySet#put(value)`. -/
def SummarySet.put (s : SummarySet) (value : JVal) : SummarySet :=
  { s with _sum := jadd s._sum value,
           _min := jmin s._min value,
           _max := jmax s._max value,
           _count := s._count + 1 }

/-- The `size` getter: the current sample count. -/
def SummarySet.size (s : SummarySet) : ℕ :=
  s._count

/-- `SummarySet#peek`: the snapshot, without mutating the state (it is a pure
function of the state). -/
def SummarySet.peek (s : SummarySet) : StatisticValues :=
  { Minimum := s._min, Maximum := s._max, Sum := s._sum, SampleCount := s._count }

/-- `SummarySet#get`: `peek()` followed by `reset()`; returns the snapshot and
the successor state. -/
def SummarySet.get (s : SummarySet) : StatisticValues × SummarySet :=
  let result := s.peek
  (result, s.reset)

/-- The merged metric options (`DEFAULT_METRIC_OPTIONS` shape).  The
`sendCallback` function is not modelled (see the module comment). -/
structure MetricOptions where
  enabled : Bool
  sendInterval : ℕ
  summaryInterval : ℕ
  maxCapacity : ℕ
  withTimestamp : Bool
  storageResolution : Option ℕ
deriving DecidableEq, Repr

/-- `DEFAULT_METRIC_OPTIONS` from `index.js`. -/
def DEFAULT_METRIC_OPTIONS : MetricOptions :=
  { enabled := true, sendInterval := 5000, summaryInterval := 10000,
    maxCapacity := 20, withTimestamp := false, storageResolution := none }

/-- A caller-supplied `options` object: each field is present (`some`) or
absent (`none`). -/
structure MetricOptionsPatch where
  enabled : Option Bool
  sendInterval : Option ℕ
  summaryInterval : Option ℕ
  maxCapacity : Option ℕ
  withTimestamp : Option Bool
  storageResolution : Option (Option ℕ)
deriving DecidableEq, Repr

/-- The empty `options` object. -/
def MetricOptionsPatch.empty : MetricOptionsPatch :=
  { enabled := none, sendInterval := none, summaryInterval := none,
    maxCapacity := none, withTimestamp := none, storageResolution := none }

/-- `Object.assign({}, DEFAULT_METRIC_OPTIONS, options)`: a present field of
the caller's options overrides the default. -/
def assignOptions (p : MetricOptionsPatch) : MetricOptions :=
  { enabled := p.enabled.getD DEFAULT_METRIC_OPTIONS.enabled,
    sendInterval := p.sendInterval.getD DEFAULT_METRIC_OPTIONS.sendInterval,
    summaryInterval := p.summaryInterval.getD DEFAULT_METRIC_OPTIONS.summaryInterval,
    maxCapacity := p.maxCapacity.getD DEFAULT_METRIC_OPTIONS.maxCapacity,
    withTimestamp := p.withTimestamp.getD DEFAULT_METRIC_OPTIONS.withTimestamp,
    storageResolution := p.storageResolution.getD DEFAULT_METRIC_OPTIONS.storageResolution }

/-- The payload pushed by `Metric#_put`. -/
structure DataPoint where
  MetricName : String
  Dimensions : List Dimension
  Unit : String
  Value : JVal
  Timestamp : Option ℕ
  StorageResolution : Option ℕ
deriving DecidableEq, Repr

/-- A value of the `_summaryData` map: the `[metricName, units, allDimensions,
set]` tuple stored by `Metric#_summaryPut`. -/
structure SummaryEntry where
  metricName : String
  units : String
  allDimensions : List Dimension
  set : SummarySet
deriving DecidableEq, Repr

/-- One element of the `MetricData` array built by
`Metric#_summarizeMetrics`. -/
structure SummaryDatum where
  MetricName : String
  Dimensions : List Dimension
  StatisticValues : StatisticValues
  Unit : String
deriving DecidableEq, Repr

/-- One `PutMetricDataCommand` handed to `cloudwatch.send`: either the batch
of discrete data points of `_sendMetrics` or the batch of statistics records
of `_putSummaryMetrics`. -/
inductive Batch where
  | points (nspace : String) (MetricData : List DataPoint)
  | summaries (nspace : String) (MetricData : List SummaryDatum)
deriving DecidableEq, Repr

/-- The number of records inside one dispatched batch. -/
def Batch.size : Batch → ℕ
  | Batch.points _ d => d.length
  | Batch.summaries _ d => d.length

/-- A live `setInterval` handle: its identity and the interval it was created
with. -/
structure Timer where
  id : ℕ
  interval : ℕ
deriving DecidableEq, Repr

/-- ES `Map#get` on the association-list model. -/
def mapGet {α : Type} (l : List (String × α)) (k : String) : Option α :=
  match l.find? (fun p => p.1 == k) with
  | some p => some p.2
  | none => none

/-- ES `Map#set` on the association-list model: replace in place when the key
is present, append otherwise. -/
def mapSet {α : Type} (l : List (String × α)) (k : String) (v : α) : List (String × α) :=
  match l with
  | [] => [(k, v)]
  | p :: rest => if p.1 == k then (k, v) :: rest else p :: mapSet rest k v

/-- `makeKey(metricName, units, dimensions)` from `index.js`: the
NUL-separated identity string. -/
def makeKey (metricName units : String) (dimensions : List Dimension) : String :=
  dimensions.foldl (fun key d => key ++ "\x00" ++ d.Name ++ "\x00" ++ d.Value)
    (metricName ++ "\x00" ++ units)

/-- A `Metric` instance: its immutable configuration (`namespace` is spelled
`nspace` because `namespace` is a Lean keyword) together with the mutable
fields `_storedMetrics`, `_summaryData`, `_interval`, `_summaryInterval`, and
the model-only `nextTimerId` (fresh-handle counter) and `sentBatches`
(the log of backend dispatches). -/
structure Metric where
  nspace : String
  units : String
  defaultDimensions : List Dimension
  options : MetricOptions
  _storedMetrics : List DataPoint
  _summaryData : List (String × SummaryEntry)
  _interval : Option Timer
  _summaryInterval : Option Timer
  nextTimerId : ℕ
  sentBatches : List Batch
deriving DecidableEq, Repr

/-- `new Metric(namespace, units, defaultDimensions, options)`: when enabled,
both recurring timers are started (the point-flush timer first, mirroring the
two `setInterval` calls of the constructor); otherwise no timer is created. -/
def Metric.new (nspace units : String) (defaultDimensions : Option (List Dimension))
    (options : Option MetricOptionsPatch) : Metric :=
  let opts := assignOptions (options.getD MetricOptionsPatch.empty)
  if opts.enabled then
    { nspace := nspace, units := units,
      defaultDimensions := defaultDimensions.getD [],
      options := opts,
      _storedMetrics := [], _summaryData := [],
      _interval := some { id := 0, interval := opts.sendInterval },
      _summaryInterval := some { id := 1, interval := opts.summaryInterval },
      nextTimerId := 2, sentBatches := [] }
  else
    { nspace := nspace, units := units,
      defaultDimensions := defaultDimensions.getD [],
      options := opts,
      _storedMetrics := [], _summaryData := [],
      _interval := none, _summaryInterval := none,
      nextTimerId := 0, sentBatches := [] }

/-- `self._interval = setInterval(() => self._sendMetrics(), sendInterval)`:
allocate a fresh handle for the point-flush timer. -/
def Metric.startSendInterval (m : Metric) : Metric :=
  { m with _interval := some { id := m.nextTimerId, interval := m.options.sendInterval },
           nextTimerId := m.nextTimerId + 1 }

/-- `Metric#_sendMetrics`: swap the buffer for an empty one; if the drained
list is empty do nothing, otherwise dispatch it as one batch. -/
def Metric._sendMetrics (m : Metric) : Metric :=
  let dataPoints := m._storedMetrics
  let m₁ := { m with _storedMetrics := [] }
  if dataPoints.isEmpty then m₁
  else { m₁ with sentBatches := m₁.sentBatches ++ [Batch.points m₁.nspace dataPoints] }

/-- The payload object built at the top of `Metric#_put` (lines 171-182 of
`index.js`).  `Timestamp` is attached when `withTimestamp` is set;
`StorageResolution` is attached when `options.storageResolution` is truthy
(present and non-zero). -/
def Metric.mkPayload (m : Metric) (now : ℕ) (value : JVal)
    (metricName units : String) (additionalDimensions : List Dimension) : DataPoint :=
  { MetricName := metricName,
    Dimensions := m.defaultDimensions ++ additionalDimensions,
    Unit := units,
    Value := value,
    Timestamp := if m.options.withTimestamp then some now else none,
    StorageResolution :=
      match m.options.storageResolution with
      | some r => if r = 0 then none else some r
      | none => none }

/-- `Metric#_put`: a no-op unless enabled; otherwise push the payload, and if
the buffer length has reached `maxCapacity`, clear the point-flush timer,
send synchronously, and start a fresh timer at the same interval. -/
def Metric._put (m : Metric) (now : ℕ) (value : JVal)
    (metricName units : String) (additionalDimensions : List Dimension) : Metric :=
  if m.options.enabled then
    let payload := m.mkPayload now value metricName units additionalDimensions
    let m₁ := { m with _storedMetrics := m._storedMetrics ++ [payload] }
    if m₁._storedMetrics.length = m₁.options.maxCapacity then
      let m₂ := { m₁ with _interval := none }
      let m₃ := m₂._sendMetrics
      m₃.startSendInterval
    else m₁
  else m

/-- The third argument of a 3-argument `put` / `summaryPut` call: either an
array (of dimensions) or a non-array value used in unit position (the API
documents a unit string there; `Array.isArray` is what the code tests). -/
inductive Arg3 where
  | arr (ds : List Dimension)
  | unitStr (u : String)
deriving DecidableEq, Repr

/-- `Metric#put` called with exactly three arguments: `Array.isArray(args[2])`
selects whether the third argument is the additional dimensions (inheriting
the stream's units) or the unit override (with empty dimensions). -/
def Metric.put3 (m : Metric) (now : ℕ) (value : JVal) (metricName : String)
    (arg3 : Arg3) : Metric :=
  match arg3 with
  | Arg3.arr ds => m._put now value metricName m.units ds
  | Arg3.unitStr u => m._put now value metricName u []

/-- `Metric#put` called with exactly two arguments:
`this._put(...args, this.units)` with the dimensions defaulting to `[]`. -/
def Metric.put2 (m : Metric) (now : ℕ) (value : JVal) (metricName : String) : Metric :=
  m._put now value metricName m.units []

/-- `Metric#_summaryPut`: look up (or lazily create, with the merged
default + call-site dimensions) the summary entry for the key, and add the
value to its `SummarySet`.  Note: unlike `_put`, there is no
`options.enabled` guard in the source. -/
def Metric._summaryPut (m : Metric) (value : JVal)
    (metricName units : String) (additionalDimensions : List Dimension) : Metric :=
  let key := makeKey metricName units additionalDimensions
  match mapGet m._summaryData key with
  | some entry =>
      { m with _summaryData :=
          mapSet m._summaryData key ({ entry with set := entry.set.put value }) }
  | none =>
      let allDimensions := m.defaultDimensions ++ additionalDimensions
      let entry : SummaryEntry :=
        { metricName := metricName, units := units,
          allDimensions := allDimensions,
          set := SummarySet.mkDefault.put value }
      { m with _summaryData := mapSet m._summaryData key entry }

/-- `Metric#summaryPut` with three arguments (same dispatch as `put3`). -/
def Metric.summaryPut3 (m : Metric) (value : JVal) (metricName : String)
    (arg3 : Arg3) : Metric :=
  match arg3 with
  | Arg3.arr ds => m._summaryPut value metricName m.units ds
  | Arg3.unitStr u => m._summaryPut value metricName u []

/-- `Metric#summaryPut` with two arguments:
`this._summaryPut(...args, this.units, [])`. -/
def Metric.summaryPut2 (m : Metric) (value : JVal) (metricName : String) : Metric :=
  m._summaryPut value metricName m.units []

/-- A JavaScript value in an argument position of the variadic
`Metric#sample`. -/
inductive JsArg where
  | undef
  | num (v : JVal)
  | str (s : String)
  | arr (ds : List Dimension)
deriving DecidableEq, Repr

/-- The error thrown by a property access on `undefined`. -/
inductive JsError where
  | typeError
deriving DecidableEq, Repr

/-- The five arguments with which `Metric#sample` invokes the underlying
`_sample`. -/
structure SampleCall where
  value : JsArg
  metricName : JsArg
  units : String
  additionalDimensions : JsArg
  sampleRate : JsArg
deriving DecidableEq, Repr

/-- `Metric#sample(...args)`: with exactly four arguments, destructure them
and delegate to `_sample(value, metricName, this.units,
additionalDimensions, sampleRate)`.  Any other arity reaches
`return this.prototype._sample(...args)`: a `Metric` instance has no
`prototype` property (that property lives on the constructor function), so
the read yields `undefined` and the `._sample` access on it throws a
`TypeError`. -/
def Metric.sampleDispatch (m : Metric) (args : List JsArg) : Except JsError SampleCall :=
  if args.length = 4 then
    Except.ok
      { value := args.getD 0 JsArg.undef,
        metricName := args.getD 1 JsArg.undef,
        units := m.units,
        additionalDimensions := args.getD 2 JsArg.undef,
        sampleRate := args.getD 3 JsArg.undef }
  else
    Except.error JsError.typeError

/-- `Metric#_sample` on the path taken by the 4-argument `sample` call
(where `additionalDimensions` is an array, so the `Array.isArray` ternary
keeps the given `sampleRate`): publish via `put` when the random draw
`rand` (the `Math.random()` result) is strictly below the sample rate. -/
def Metric._sample (m : Metric) (now : ℕ) (rand : ℚ) (value : JVal)
    (metricName units : String) (additionalDimensions : List Dimension)
    (sampleRate : ℚ) : Metric :=
  if rand < sampleRate then
    m._put now value metricName units additionalDimensions
  else m

/-- The loop body of `Metric#_summarizeMetrics`: walk the summary entries in
insertion order carrying the `dataPoints` accumulator; skip zero-size sets;
otherwise emit the record (via `peek`) and reset the set in place (the two
effects of `set.get()`), and close a batch whenever the accumulator length
reaches `cap`.  Returns the updated entry list, the closed batches in
dispatch order, and the leftover accumulator. -/
def summarizeEntries (cap : ℕ) :
    List SummaryDatum → List (String × SummaryEntry) →
    List (String × SummaryEntry) × List (List SummaryDatum) × List SummaryDatum
  | pending, [] => ([], [], pending)
  | pending, (k, e) :: rest =>
      if e.set.size = 0 then
        let r := summarizeEntries cap pending rest
        ((k, e) :: r.1, r.2.1, r.2.2)
      else
        let datum : SummaryDatum :=
          { MetricName := e.metricName, Dimensions := e.allDimensions,
            StatisticValues := e.set.peek, Unit := e.units }
        let e' : SummaryEntry := { e with set := e.set.reset }
        let pending' := pending ++ [datum]
        if pending'.length = cap then
          let r := summarizeEntries cap [] rest
          ((k, e') :: r.1, pending' :: r.2.1, r.2.2)
        else
          let r := summarizeEntries cap pending' rest
          ((k, e') :: r.1, r.2.1, r.2.2)

/-- The summary flush computation of `Metric#_summarizeMetrics`: the batches
dispatched (in order, including the final shorter batch when the leftover
accumulator is non-empty) and the updated summary table. -/
def Metric.summarizeResult (m : Metric) :
    List (List SummaryDatum) × List (String × SummaryEntry) :=
  let r := summarizeEntries m.options.maxCapacity [] m._summaryData
  let dataPoints := r.2.2
  (if dataPoints.length = 0 then r.2.1 else r.2.1 ++ [dataPoints], r.1)

/-- `Metric#_putSummaryMetrics(MetricData)`: dispatch one batch of statistics
records. -/
def Metric._putSummaryMetrics (m : Metric) (MetricData : List SummaryDatum) : Metric :=
  { m with sentBatches := m.sentBatches ++ [Batch.summaries m.nspace MetricData] }

/-- `Metric#_summarizeMetrics`: update the summary table and dispatch each
computed batch, in order, via `_putSummaryMetrics`. -/
def Metric._summarizeMetrics (m : Metric) : Metric :=
  let r := m.summarizeResult
  let m₁ := { m with _summaryData := r.2 }
  r.1.foldl Metric._putSummaryMetrics m₁

/-- The arguments of one `_put` call (with `now` the clock reading for the
optional timestamp). -/
structure PutOp where
  now : ℕ
  value : JVal
  metricName : String
  units : String
  additionalDimensions : List Dimension
deriving DecidableEq, Repr

/-- Apply one `_put` call described by a `PutOp`. -/
def Metric.putOp (m : Metric) (op : PutOp) : Metric :=
  m._put op.now op.value op.metricName op.units op.additionalDimensions

/-- Apply a sequence of `_put` calls from left to right. -/
def Metric.applyPuts (m : Metric) (ops : List PutOp) : Metric :=
  ops.foldl Metric.putOp m

/-- The payload that a `PutOp` produces on metric `m`. -/
def Metric.payloadOfOp (m : Metric) (op : PutOp) : DataPoint :=
  m.mkPayload op.now op.value op.metricName op.units op.additionalDimensions

lemma Metric._put_disabled (m : Metric) (now : ℕ) (v : JVal) (n u : String)
    (ds : List Dimension) (h : m.options.enabled = false) :
    m._put now v n u ds = m := by
  simp [Metric._put, h]

lemma Metric._put_noflush (m : Metric) (now : ℕ) (v : JVal) (n u : String)
    (ds : List Dimension) (hen : m.options.enabled = true)
    (h : m._storedMetrics.length + 1 ≠ m.options.maxCapacity) :
    m._put now v n u ds =
      { m with _storedMetrics := m._storedMetrics ++ [m.mkPayload now v n u ds] } := by
  simp [Metric._put, hen, h]

lemma Metric._put_flush (m : Metric) (now : ℕ) (v : JVal) (n u : String)
    (ds : List Dimension) (hen : m.options.enabled = true)
    (h : m._storedMetrics.length + 1 = m.options.maxCapacity) :
    m._put now v n u ds =
      { m with _storedMetrics := [],
               _interval := some { id := m.nextTimerId, interval := m.options.sendInterval },
               nextTimerId := m.nextTimerId + 1,
               sentBatches := m.sentBatches ++
                 [Batch.points m.nspace (m._storedMetrics ++ [m.mkPayload now v n u ds])] } := by
  simp [Metric._put, Metric._sendMetrics, Metric.startSendInterval, hen, h]

/-- Claim C5: a point flush (timer-driven or capacity-triggered) that finds
the point buffer empty dispatches nothing to the backend client: with an
empty `_storedMetrics`, `_sendMetrics` performs no backend send (the
dispatch log is unchanged — indeed the whole state is unchanged), so no
empty batch of discrete points is ever sent. -/
theorem sendMetrics_empty_no_dispatch (m : Metric) (h : m._storedMetrics = []) :
    (m._sendMetrics).sentBatches = m.sentBatches ∧ m._sendMetrics = m := by
  cases m with
  | mk nspace units dds opts stored sdata itv sitv tid sent =>
      subst h
      simp [Metric._sendMetrics]

theorem sendMetrics_empty_no_dispatch_witness :
    (Metric.new "namespace" "Count" none none)._storedMetrics = [] ∧
    (((Metric.new "namespace" "Count" none none)._sendMetrics).sentBatches =
        (Metric.new "namespace" "Count" none none).sentBatches ∧
      (Metric.new "namespace" "Count" none none)._sendMetrics =
        Metric.new "namespace" "Count" none none) :=
  ⟨by decide, sendMetrics_empty_no_dispatch (Metric.new "namespace" "Count" none none) (by decide)⟩

/-- Claim C8: for every `SummarySet` state, `get()` returns the same snapshot
as `peek()` would on that state, and the state after `get()` is the `reset()`
state: `_min` is the min sentinel, `_max` the max sentinel, `_sum` zero and
`_count` zero — and the default construction's sentinels are `+Infinity` and
`-Infinity`.  `peek` is a pure function of the state (type
`SummarySet → StatisticValues`), so it never mutates the state. -/
theorem summarySet_get_peek_reset (s : SummarySet) :
    (s.get).1 = s.peek ∧ (s.get).2 = s.reset ∧
    (s.get).2._min = s._minSentinel ∧ (s.get).2._max = s._maxSentinel ∧
    (s.get).2._sum = JVal.num 0 ∧ (s.get).2._count = 0 ∧
    SummarySet.mkDefault._minSentinel = JVal.inf ∧
    SummarySet.mkDefault._maxSentinel = JVal.negInf :=
  ⟨rfl, rfl, rfl, rfl, rfl, rfl, rfl, rfl⟩

lemma Metric.putOp_eq (m : Metric) (op : PutOp) :
    m.putOp op = m._put op.now op.value op.metricName op.units op.additionalDimensions := rfl

lemma Metric._put_immutable (m : Metric) (now : ℕ) (v : JVal) (n u : String)
    (ds : List Dimension) :
    (m._put now v n u ds).options = m.options ∧
    (m._put now v n u ds).defaultDimensions = m.defaultDimensions ∧
    (m._put now v n u ds).nspace = m.nspace ∧
    (m._put now v n u ds).units = m.units ∧
    (m._put now v n u ds)._summaryData = m._summaryData ∧
    (m._put now v n u ds)._summaryInterval = m._summaryInterval := by
  by_cases hen : m.options.enabled = true
  · by_cases h : m._storedMetrics.length + 1 = m.options.maxCapacity
    · rw [Metric._put_flush m now v n u ds hen h]
      exact ⟨rfl, rfl, rfl, rfl, rfl, rfl⟩
    · rw [Metric._put_noflush m now v n u ds hen h]
      exact ⟨rfl, rfl, rfl, rfl, rfl, rfl⟩
  · rw [Metric._put_disabled m now v n u ds (by simpa using hen)]
    exact ⟨rfl, rfl, rfl, rfl, rfl, rfl⟩

lemma Metric.putOp_options (m : Metric) (op : PutOp) :
    (m.putOp op).options = m.options :=
  (Metric._put_immutable m op.now op.value op.metricName op.units op.additionalDimensions).1

lemma Metric.putOp_payloadOfOp (m : Metric) (op : PutOp) :
    (m.putOp op).payloadOfOp = m.payloadOfOp := by
  funext op'
  have h := Metric._put_immutable m op.now op.value op.metricName op.units op.additionalDimensions
  simp [Metric.payloadOfOp, Metric.mkPayload, Metric.putOp_eq, h.1, h.2.1]

lemma Metric.applyPuts_nil (m : Metric) : m.applyPuts [] = m := rfl

lemma Metric.applyPuts_cons (m : Metric) (op : PutOp) (ops : List PutOp) :
    m.applyPuts (op :: ops) = (m.putOp op).applyPuts ops := rfl

lemma Metric.applyPuts_append (m : Metric) (l₁ l₂ : List PutOp) :
    m.applyPuts (l₁ ++ l₂) = (m.applyPuts l₁).applyPuts l₂ :=
  List.foldl_append _ _ _ _

lemma Metric.applyPuts_no_flush (m : Metric) (ops : List PutOp)
    (hen : m.options.enabled = true)
    (h : m._storedMetrics.length + ops.length < m.options.maxCapacity) :
    m.applyPuts ops = { m with _storedMetrics := m._storedMetrics ++ ops.map m.payloadOfOp } := by
  induction ops generalizing m with
  | nil =>
      cases m
      simp [Metric.applyPuts]
  | cons op ops ih =>
      have hstep : m._storedMetrics.length + 1 ≠ m.options.maxCapacity := by
        simp only [List.length_cons] at h
        omega
      rw [Metric.applyPuts_cons, Metric.putOp_eq,
        Metric._put_noflush m op.now op.value op.metricName op.units op.additionalDimensions hen hstep]
      rw [ih]
      · simp [Metric.payloadOfOp, Metric.mkPayload, List.append_assoc]
      · exact hen
      · simp only [List.length_append, List.length_cons, List.length_nil] at h ⊢
        omega

lemma Metric.putOp_length_lt (m : Metric) (op : PutOp)
    (hen : m.options.enabled = true)
    (hcap : 0 < m.options.maxCapacity)
    (h : m._storedMetrics.length < m.options.maxCapacity) :
    (m.putOp op)._storedMetrics.length < m.options.maxCapacity := by
  by_cases hflush : m._storedMetrics.length + 1 = m.options.maxCapacity
  · rw [Metric.putOp_eq,
      Metric._put_flush m op.now op.value op.metricName op.units op.additionalDimensions hen hflush]
    simpa using hcap
  · rw [Metric.putOp_eq,
      Metric._put_noflush m op.now op.value op.metricName op.units op.additionalDimensions hen hflush]
    simp only [List.length_append, List.length_cons, List.length_nil]
    omega

lemma Metric.applyPuts_length_lt (m : Metric) (ops : List PutOp)
    (hen : m.options.enabled = true)
    (hcap : 0 < m.options.maxCapacity)
    (h : m._storedMetrics.length < m.options.maxCapacity) :
    (m.applyPuts ops)._storedMetrics.length < m.options.maxCapacity := by
  induction ops generalizing m with
  | nil => exact h
  | cons op ops ih =>
      rw [Metric.applyPuts_cons]
      have hopt := Metric.putOp_options m op
      have := ih (m.putOp op) (by rw [hopt]; exact hen) (by rw [hopt]; exact hcap)
        (by rw [hopt]; exact Metric.putOp_length_lt m op hen hcap h)
      rw [hopt] at this
      exact this

/-- Claim C3: for every enabled Metric (at rest, with a positive capacity and
timer handles older than the fresh-handle counter) and every sequence of
point writes, the point buffer holds at most `maxCapacity` elements when any
write returns; and a write whose append brings the buffer length to exactly
`maxCapacity` synchronously cancels the point-flush timer, drains and
dispatches the whole buffer as one batch before returning, and restarts a
fresh timer (a new handle, distinct from the old one) at the same interval —
so a timer-driven flush arriving right after dispatches nothing
(no duplicate dispatch of the already-drained buffer). -/
theorem put_capacity_flush_behavior (m : Metric) (op : PutOp)
    (hen : m.options.enabled = true)
    (hcap : 0 < m.options.maxCapacity)
    (hrest : m._storedMetrics.length < m.options.maxCapacity)
    (htid : ∀ t : Timer, m._interval = some t → t.id < m.nextTimerId) :
    (∀ ops : List PutOp, (m.applyPuts ops)._storedMetrics.length ≤ m.options.maxCapacity) ∧
    (m._storedMetrics.length + 1 = m.options.maxCapacity →
      (m.putOp op)._storedMetrics = [] ∧
      (m.putOp op).sentBatches =
        m.sentBatches ++ [Batch.points m.nspace (m._storedMetrics ++ [m.payloadOfOp op])] ∧
      (m.putOp op)._interval = some { id := m.nextTimerId, interval := m.options.sendInterval } ∧
      (m.putOp op).nextTimerId = m.nextTimerId + 1 ∧
      (m.putOp op)._interval ≠ m._interval ∧
      ((m.putOp op)._sendMetrics).sentBatches = (m.putOp op).sentBatches) := by
  constructor
  · intro ops
    exact le_of_lt (Metric.applyPuts_length_lt m ops hen hcap hrest)
  · intro hflush
    rw [Metric.putOp_eq,
      Metric._put_flush m op.now op.value op.metricName op.units op.additionalDimensions hen hflush]
    refine ⟨rfl, rfl, rfl, rfl, ?_, ?_⟩
    · intro hcontra
      cases hI : m._interval with
      | none => rw [hI] at hcontra; exact Option.noConfusion hcontra
      | some t =>
          rw [hI] at hcontra
          have h1 : ({ id := m.nextTimerId, interval := m.options.sendInterval } : Timer) = t :=
            Option.some.inj hcontra
          have h2 := htid t hI
          rw [← h1] at h2
          simp at h2
    · simp [Metric._sendMetrics]

/-- Concrete metric for exercising the capacity-triggered flush: requested
capacity 1, so the very first write reaches capacity. -/
def mC3 : Metric :=
  Metric.new "namespace" "Count" none
    (some { MetricOptionsPatch.empty with maxCapacity := some 1 })

/-- A concrete `_put` call. -/
def opC3 : PutOp :=
  { now := 0, value := JVal.num 1, metricName := "m", units := "Count",
    additionalDimensions := [] }

theorem put_capacity_flush_behavior_witness :
    mC3.options.enabled = true ∧
    0 < mC3.options.maxCapacity ∧
    mC3._storedMetrics.length < mC3.options.maxCapacity ∧
    (∀ t : Timer, mC3._interval = some t → t.id < mC3.nextTimerId) ∧
    ((∀ ops : List PutOp, (mC3.applyPuts ops)._storedMetrics.length ≤ mC3.options.maxCapacity) ∧
      (mC3._storedMetrics.length + 1 = mC3.options.maxCapacity →
        (mC3.putOp opC3)._storedMetrics = [] ∧
        (mC3.putOp opC3).sentBatches =
          mC3.sentBatches ++
            [Batch.points mC3.nspace (mC3._storedMetrics ++ [mC3.payloadOfOp opC3])] ∧
        (mC3.putOp opC3)._interval =
          some { id := mC3.nextTimerId, interval := mC3.options.sendInterval } ∧
        (mC3.putOp opC3).nextTimerId = mC3.nextTimerId + 1 ∧
        (mC3.putOp opC3)._interval ≠ mC3._interval ∧
        ((mC3.putOp opC3)._sendMetrics).sentBatches = (mC3.putOp opC3).sentBatches)) := by
  have htid : ∀ t : Timer, mC3._interval = some t → t.id < mC3.nextTimerId := by
    intro t ht
    rw [show mC3._interval = some (Timer.mk 0 5000) from by decide] at ht
    cases Option.some.inj ht
    decide
  exact ⟨by decide, by decide, by decide, htid,
    put_capacity_flush_behavior mC3 opC3 (by decide) (by decide) (by decide) htid⟩

lemma Metric.new_enabled_eq (nspace units : String) (dds : List Dimension)
    (patch : MetricOptionsPatch) (hen : (assignOptions patch).enabled = true) :
    Metric.new nspace units (some dds) (some patch) =
      { nspace := nspace, units := units, defaultDimensions := dds,
        options := assignOptions patch,
        _storedMetrics := [], _summaryData := [],
        _interval := some { id := 0, interval := (assignOptions patch).sendInterval },
        _summaryInterval := some { id := 1, interval := (assignOptions patch).summaryInterval },
        nextTimerId := 2, sentBatches := [] } := by
  simp [Metric.new, hen]

/-- Claim C1 (amended): the requested `maxCapacity` is used as-is — there is
no clamp to 20.  For every Metric constructed with an enabled configuration
requesting a positive capacity `M` (in particular any `M > 20`, e.g. 100 or
21), writing exactly `M` points dispatches exactly one batch containing all
`M` of them, the capacity-triggered flush fires only when the buffer reaches
`M` (no batch is dispatched for any shorter initial run of writes), and the
buffer is empty afterwards. -/
theorem requested_capacity_is_effective (nspace units : String) (dds : List Dimension)
    (patch : MetricOptionsPatch) (ops : List PutOp)
    (hen : (assignOptions patch).enabled = true)
    (hM : 0 < (assignOptions patch).maxCapacity)
    (hlen : ops.length = (assignOptions patch).maxCapacity) :
    ((Metric.new nspace units (some dds) (some patch)).applyPuts ops)._storedMetrics = [] ∧
    ((Metric.new nspace units (some dds) (some patch)).applyPuts ops).sentBatches =
      [Batch.points nspace
        (ops.map (Metric.new nspace units (some dds) (some patch)).payloadOfOp)] ∧
    (ops.map (Metric.new nspace units (some dds) (some patch)).payloadOfOp).length =
      (assignOptions patch).maxCapacity ∧
    (∀ k, k < ops.length →
      ((Metric.new nspace units (some dds) (some patch)).applyPuts (ops.take k)).sentBatches = []) := by
  rw [Metric.new_enabled_eq nspace units dds patch hen]
  set M := (assignOptions patch).maxCapacity with hMdef
  set m₀ : Metric :=
    { nspace := nspace, units := units, defaultDimensions := dds,
      options := assignOptions patch,
      _storedMetrics := [], _summaryData := [],
      _interval := some { id := 0, interval := (assignOptions patch).sendInterval },
      _summaryInterval := some { id := 1, interval := (assignOptions patch).summaryInterval },
      nextTimerId := 2, sentBatches := [] } with hm₀
  have hne : ops ≠ [] := by
    intro hnil
    rw [hnil] at hlen
    simp at hlen
    omega
  have hsplit : ops.dropLast ++ [ops.getLast hne] = ops := List.dropLast_append_getLast hne
  have hfrontlen : ops.dropLast.length = M - 1 := by
    rw [List.length_dropLast, hlen]
  have hfront : m₀.applyPuts ops.dropLast =
      { m₀ with _storedMetrics := m₀._storedMetrics ++ ops.dropLast.map m₀.payloadOfOp } := by
    apply Metric.applyPuts_no_flush
    · exact hen
    · show ([] : List DataPoint).length + ops.dropLast.length < M
      rw [hfrontlen]
      simp
      omega
  have hmidlen : (m₀.applyPuts ops.dropLast)._storedMetrics.length + 1 = M := by
    rw [hfront]
    show (([] : List DataPoint) ++ ops.dropLast.map m₀.payloadOfOp).length + 1 = M
    simp [hfrontlen]
    omega
  refine ⟨?_, ?_, ?_, ?_⟩
  · rw [← hsplit, Metric.applyPuts_append]
    show ((m₀.applyPuts ops.dropLast).putOp (ops.getLast hne))._storedMetrics = []
    rw [Metric.putOp_eq, Metric._put_flush _ _ _ _ _ _ (by rw [hfront]; exact hen)
      (by rw [hfront] at hmidlen ⊢; exact hmidlen)]
  · rw [← hsplit, Metric.applyPuts_append]
    show ((m₀.applyPuts ops.dropLast).putOp (ops.getLast hne)).sentBatches = _
    rw [Metric.putOp_eq, Metric._put_flush _ _ _ _ _ _ (by rw [hfront]; exact hen)
      (by rw [hfront] at hmidlen ⊢; exact hmidlen)]
    rw [hfront]
    show ([] : List Batch) ++
        [Batch.points nspace
          (([] ++ ops.dropLast.map m₀.payloadOfOp) ++ [m₀.payloadOfOp (ops.getLast hne)])] =
      [Batch.points nspace ((ops.dropLast ++ [ops.getLast hne]).map m₀.payloadOfOp)]
    simp
  · simp [hlen]
  · intro k hk
    have htake : m₀.applyPuts (ops.take k) =
        { m₀ with _storedMetrics := m₀._storedMetrics ++ (ops.take k).map m₀.payloadOfOp } := by
      apply Metric.applyPuts_no_flush
      · exact hen
      · show ([] : List DataPoint).length + (ops.take k).length < M
        simp [List.length_take]
        omega
    rw [htake]

/-- An options object requesting `maxCapacity: 21` (a value above the spec's
purported hard cap of 20). -/
def patchC1 : MetricOptionsPatch :=
  { MetricOptionsPatch.empty with maxCapacity := some 21 }

/-- A concrete `_put` call for the capacity experiments. -/
def opC1 : PutOp :=
  { now := 0, value := JVal.num 1, metricName := "m", units := "Count",
    additionalDimensions := [] }

/-- The metric constructed with requested capacity 21. -/
def mC1 : Metric := Metric.new "namespace" "Count" (some []) (some patchC1)

theorem requested_capacity_is_effective_witness :
    (assignOptions patchC1).enabled = true ∧
    0 < (assignOptions patchC1).maxCapacity ∧
    (List.replicate 21 opC1).length = (assignOptions patchC1).maxCapacity ∧
    ((mC1.applyPuts (List.replicate 21 opC1))._storedMetrics = [] ∧
      (mC1.applyPuts (List.replicate 21 opC1)).sentBatches =
        [Batch.points "namespace" ((List.replicate 21 opC1).map mC1.payloadOfOp)] ∧
      ((List.replicate 21 opC1).map mC1.payloadOfOp).length =
        (assignOptions patchC1).maxCapacity ∧
      (∀ k, k < (List.replicate 21 opC1).length →
        (mC1.applyPuts ((List.replicate 21 opC1).take k)).sentBatches = [])) :=
  ⟨by decide, by decide, by decide,
    requested_capacity_is_effective "namespace" "Count" [] patchC1
      (List.replicate 21 opC1) (by decide) (by decide) (by decide)⟩

/-- Claim C1 (counterexample): with a requested capacity of 21 (> 20), the
buffer reaches 20 points with no dispatch at all (so the capacity-triggered
flush does not fire at 20), and the run of 21 writes dispatches a batch of
21 > 20 data points — the effective capacity is not clamped to 20. -/
theorem capacity_not_clamped_counterexample :
    (mC1.applyPuts (List.replicate 20 opC1)).sentBatches = [] ∧
    (mC1.applyPuts (List.replicate 20 opC1))._storedMetrics.length = 20 ∧
    (mC1.applyPuts (List.replicate 21 opC1)).sentBatches.map Batch.size = [21] := by
  decide

/-- A metric constructed with `enabled: false`. -/
def mC2 : Metric :=
  Metric.new "namespace" "Count" none
    (some { MetricOptionsPatch.empty with enabled := some false })

/-- Claim C2, evaluated at the failing input: constructing with
`enabled:false` creates no timers, and `_put` (hence `put` and the sampled
write) is a no-op — but `summaryPut` is NOT: one `summaryPut(5, "m")` call on
the disabled metric leaves `_summaryData` with one entry holding one sample,
so the summary table is not empty, contrary to the claim that every write
operation is a no-op. -/
theorem disabled_summaryPut_accumulates :
    mC2.options.enabled = false ∧
    mC2._interval = none ∧
    mC2._summaryInterval = none ∧
    (mC2._put 0 (JVal.num 1) "m" "Count" [])._storedMetrics = [] ∧
    (mC2.summaryPut2 (JVal.num 5) "m")._summaryData.map (fun kv => kv.2.set._count) = [1] := by
  decide

/-- Claim C9: `Metric#sample` invoked with exactly four arguments dispatches
to the underlying `_sample` with `(value, metricName, this.units,
additionalDimensions, sampleRate)`; any other arity reaches the
`this.prototype._sample(...args)` fallback, which throws a `TypeError`
because instances have no `prototype` property. -/
theorem sample_arity_dispatch (m : Metric) (args : List JsArg) :
    (∀ a b c d : JsArg, args = [a, b, c, d] →
      m.sampleDispatch args =
        Except.ok { value := a, metricName := b, units := m.units,
                    additionalDimensions := c, sampleRate := d }) ∧
    (args.length ≠ 4 → m.sampleDispatch args = Except.error JsError.typeError) := by
  constructor
  · rintro a b c d rfl
    rfl
  · intro h
    simp [Metric.sampleDispatch, h]

theorem sample_arity_dispatch_witness :
    ([JsArg.str "lonely"] : List JsArg).length ≠ 4 ∧
    (Metric.new "n" "Count" none none).sampleDispatch [JsArg.str "lonely"] =
      Except.error JsError.typeError ∧
    (Metric.new "n" "Count" none none).sampleDispatch
        [JsArg.undef, JsArg.str "m", JsArg.arr [], JsArg.undef] =
      Except.ok
        { value := JsArg.undef, metricName := JsArg.str "m",
          units := (Metric.new "n" "Count" none none).units,
          additionalDimensions := JsArg.arr [], sampleRate := JsArg.undef } :=
  ⟨by decide,
   (sample_arity_dispatch (Metric.new "n" "Count" none none) [JsArg.str "lonely"]).2 (by decide),
   (sample_arity_dispatch (Metric.new "n" "Count" none none)
      [JsArg.undef, JsArg.str "m", JsArg.arr [], JsArg.undef]).1
     JsArg.undef (JsArg.str "m") (JsArg.arr []) JsArg.undef rfl⟩

/-- Claim C10: with exactly three arguments, `put`'s third argument selects
the overload — an array is used as the additional dimensions with the
stream's default unit, a non-array is used as the unit override with empty
additional dimensions; with exactly two arguments the default unit and empty
dimensions are used.  (Stated away from the capacity boundary so the
appended payload is observable in the buffer.) -/
theorem put_overload_dispatch (m : Metric) (now : ℕ) (v : JVal) (name u : String)
    (ds : List Dimension)
    (hen : m.options.enabled = true)
    (hroom : m._storedMetrics.length + 1 ≠ m.options.maxCapacity) :
    (m.put3 now v name (Arg3.arr ds))._storedMetrics =
      m._storedMetrics ++ [m.mkPayload now v name m.units ds] ∧
    (m.put3 now v name (Arg3.unitStr u))._storedMetrics =
      m._storedMetrics ++ [m.mkPayload now v name u []] ∧
    (m.put2 now v name)._storedMetrics =
      m._storedMetrics ++ [m.mkPayload now v name m.units []] ∧
    (m.mkPayload now v name m.units ds).Unit = m.units ∧
    (m.mkPayload now v name m.units ds).Dimensions = m.defaultDimensions ++ ds ∧
    (m.mkPayload now v name u []).Unit = u ∧
    (m.mkPayload now v name u []).Dimensions = m.defaultDimensions := by
  refine ⟨?_, ?_, ?_, rfl, rfl, rfl, ?_⟩
  · show (m._put now v name m.units ds)._storedMetrics = _
    rw [Metric._put_noflush m now v name m.units ds hen hroom]
  · show (m._put now v name u [])._storedMetrics = _
    rw [Metric._put_noflush m now v name u [] hen hroom]
  · show (m._put now v name m.units [])._storedMetrics = _
    rw [Metric._put_noflush m now v name m.units [] hen hroom]
  · simp [Metric.mkPayload]

theorem put_overload_dispatch_witness :
    (Metric.new "n" "Count" none none).options.enabled = true ∧
    (Metric.new "n" "Count" none none)._storedMetrics.length + 1 ≠
      (Metric.new "n" "Count" none none).options.maxCapacity ∧
    (((Metric.new "n" "Count" none none).put3 0 (JVal.num 3) "m"
        (Arg3.arr [{ Name := "d", Value := "v" }]))._storedMetrics =
      (Metric.new "n" "Count" none none)._storedMetrics ++
        [(Metric.new "n" "Count" none none).mkPayload 0 (JVal.num 3) "m"
          (Metric.new "n" "Count" none none).units [{ Name := "d", Value := "v" }]] ∧
    ((Metric.new "n" "Count" none none).put3 0 (JVal.num 3) "m"
        (Arg3.unitStr "Percent"))._storedMetrics =
      (Metric.new "n" "Count" none none)._storedMetrics ++
        [(Metric.new "n" "Count" none none).mkPayload 0 (JVal.num 3) "m" "Percent" []] ∧
    ((Metric.new "n" "Count" none none).put2 0 (JVal.num 3) "m")._storedMetrics =
      (Metric.new "n" "Count" none none)._storedMetrics ++
        [(Metric.new "n" "Count" none none).mkPayload 0 (JVal.num 3) "m"
          (Metric.new "n" "Count" none none).units []] ∧
    ((Metric.new "n" "Count" none none).mkPayload 0 (JVal.num 3) "m"
        (Metric.new "n" "Count" none none).units [{ Name := "d", Value := "v" }]).Unit =
      (Metric.new "n" "Count" none none).units ∧
    ((Metric.new "n" "Count" none none).mkPayload 0 (JVal.num 3) "m"
        (Metric.new "n" "Count" none none).units [{ Name := "d", Value := "v" }]).Dimensions =
      (Metric.new "n" "Count" none none).defaultDimensions ++ [{ Name := "d", Value := "v" }] ∧
    ((Metric.new "n" "Count" none none).mkPayload 0 (JVal.num 3) "m" "Percent" []).Unit =
      "Percent" ∧
    ((Metric.new "n" "Count" none none).mkPayload 0 (JVal.num 3) "m" "Percent" []).Dimensions =
      (Metric.new "n" "Count" none none).defaultDimensions) :=
  ⟨by decide, by decide,
    put_overload_dispatch (Metric.new "n" "Count" none none) 0 (JVal.num 3) "m" "Percent"
      [{ Name := "d", Value := "v" }] (by decide) (by decide)⟩

/-- The statistics record emitted for a summary entry. -/
def datumOf (e : SummaryEntry) : SummaryDatum :=
  { MetricName := e.metricName, Dimensions := e.allDimensions,
    StatisticValues := e.set.peek, Unit := e.units }

lemma summarizeEntries_records (cap : ℕ) (pending : List SummaryDatum)
    (es : List (String × SummaryEntry)) :
    ((summarizeEntries cap pending es).2.1).flatten ++ (summarizeEntries cap pending es).2.2 =
      pending ++
        ((es.filter (fun p => decide (p.2.set.size ≠ 0))).map (fun p => datumOf p.2)) := by
  induction es generalizing pending with
  | nil => simp [summarizeEntries]
  | cons pe rest ih =>
      obtain ⟨k, e⟩ := pe
      by_cases hz : e.set.size = 0
      · simp [summarizeEntries, hz, ih]
      · by_cases hc :
          (pending ++
            [({ MetricName := e.metricName, Dimensions := e.allDimensions,
                StatisticValues := e.set.peek, Unit := e.units } : SummaryDatum)]).length = cap
        · simp only [summarizeEntries, hz, if_false, hc, if_true, List.flatten_cons]
          rw [List.append_assoc, ih]
          simp [hz, datumOf]
        · simp only [summarizeEntries, hz, if_false, hc, if_true]
          rw [ih]
          simp [hz, datumOf]

lemma summarizeEntries_keeps_zero (cap : ℕ) (pending : List SummaryDatum)
    (es : List (String × SummaryEntry)) :
    ∀ p ∈ es, p.2.set.size = 0 → p ∈ (summarizeEntries cap pending es).1 := by
  induction es generalizing pending with
  | nil => simp
  | cons pe rest ih =>
      obtain ⟨k, e⟩ := pe
      intro p hp hz0
      rcases List.mem_cons.mp hp with hp | hp
      · subst hp
        simp [summarizeEntries, hz0]
      · by_cases hz : e.set.size = 0
        · simp only [summarizeEntries, hz, if_true]
          exact List.mem_cons_of_mem _ (ih pending p hp hz0)
        · by_cases hc :
            (pending ++
              [({ MetricName := e.metricName, Dimensions := e.allDimensions,
                  StatisticValues := e.set.peek, Unit := e.units } : SummaryDatum)]).length = cap
          · simp only [summarizeEntries, hz, if_false, hc, if_true]
            exact List.mem_cons_of_mem _ (ih [] p hp hz0)
          · simp only [summarizeEntries, hz, if_false, hc, if_true]
            exact List.mem_cons_of_mem _
              (ih (pending ++
                [({ MetricName := e.metricName, Dimensions := e.allDimensions,
                    StatisticValues := e.set.peek, Unit := e.units } : SummaryDatum)]) p hp hz0)

lemma summarizeEntries_batch_lengths (cap : ℕ) (pending : List SummaryDatum)
    (es : List (String × SummaryEntry)) (hp : pending.length < cap) :
    (∀ b ∈ (summarizeEntries cap pending es).2.1, b.length = cap) ∧
    (summarizeEntries cap pending es).2.2.length < cap := by
  induction es generalizing pending with
  | nil => simpa [summarizeEntries] using hp
  | cons pe rest ih =>
      obtain ⟨k, e⟩ := pe
      by_cases hz : e.set.size = 0
      · simpa [summarizeEntries, hz] using ih pending hp
      · by_cases hc :
          (pending ++
            [({ MetricName := e.metricName, Dimensions := e.allDimensions,
                StatisticValues := e.set.peek, Unit := e.units } : SummaryDatum)]).length = cap
        · have h0 : (0 : ℕ) < cap := Nat.lt_of_le_of_lt (Nat.zero_le _) hp
          have := ih [] (by simpa using h0)
          simp only [summarizeEntries, hz, if_false, hc, if_true]
          constructor
          · intro b hb
            rcases List.mem_cons.mp hb with hb | hb
            · rw [hb]; exact hc
            · exact this.1 b hb
          · exact this.2
        · have hlt :
            (pending ++
              [({ MetricName := e.metricName, Dimensions := e.allDimensions,
                  StatisticValues := e.set.peek, Unit := e.units } : SummaryDatum)]).length < cap := by
            simp only [List.length_append, List.length_cons, List.length_nil] at hc ⊢
            omega
          have hc' : pending.length + 1 ≠ cap := by simpa using hc
          simpa [summarizeEntries, hz, hc'] using ih _ hlt

lemma summarizeEntries_all_zero (cap : ℕ) (pending : List SummaryDatum)
    (es : List (String × SummaryEntry)) (h : ∀ p ∈ es, p.2.set.size = 0) :
    summarizeEntries cap pending es = (es, [], pending) := by
  induction es generalizing pending with
  | nil => simp [summarizeEntries]
  | cons pe rest ih =>
      obtain ⟨k, e⟩ := pe
      have hz : e.set.size = 0 := h (k, e) (List.mem_cons_self _ _)
      have hrest : ∀ p ∈ rest, p.2.set.size = 0 := fun p hp => h p (List.mem_cons_of_mem _ hp)
      simp [summarizeEntries, hz, ih pending hrest]

lemma foldl_putSummaryMetrics (m : Metric) (bs : List (List SummaryDatum)) :
    (bs.foldl Metric._putSummaryMetrics m).sentBatches =
      m.sentBatches ++ bs.map (Batch.summaries m.nspace) ∧
    (bs.foldl Metric._putSummaryMetrics m)._summaryData = m._summaryData ∧
    (bs.foldl Metric._putSummaryMetrics m)._storedMetrics = m._storedMetrics := by
  induction bs generalizing m with
  | nil => simp
  | cons b bs ih =>
      have := ih (m._putSummaryMetrics b)
      simpa [Metric._putSummaryMetrics, List.append_assoc] using this

lemma summarizeResult_flatten (m : Metric) :
    (m.summarizeResult).1.flatten =
      ((summarizeEntries m.options.maxCapacity [] m._summaryData).2.1).flatten ++
        (summarizeEntries m.options.maxCapacity [] m._summaryData).2.2 := by
  simp only [Metric.summarizeResult]
  by_cases h : (summarizeEntries m.options.maxCapacity [] m._summaryData).2.2.length = 0
  · have hnil : (summarizeEntries m.options.maxCapacity [] m._summaryData).2.2 = [] :=
      List.length_eq_zero.mp h
    simp [h, hnil]
  · simp [h]

/-- Claim C6: every summary flush emits only records whose aggregator has at
least one sample; zero-sample entries are kept in the table (skipped, not
deleted); the emitted records are grouped into batches of at most
`maxCapacity` records each, each dispatched as a separate backend call; and
when no entry has samples nothing is dispatched. -/
theorem summary_flush_batching (m : Metric) (hcap : 0 < m.options.maxCapacity) :
    (∀ r ∈ (m.summarizeResult).1.flatten, 1 ≤ r.StatisticValues.SampleCount) ∧
    (∀ p ∈ m._summaryData, p.2.set.size = 0 → p ∈ (m.summarizeResult).2) ∧
    (∀ b ∈ (m.summarizeResult).1, b.length ≤ m.options.maxCapacity) ∧
    ((∀ p ∈ m._summaryData, p.2.set.size = 0) → (m.summarizeResult).1 = []) ∧
    (m._summarizeMetrics)._summaryData = (m.summarizeResult).2 ∧
    (m._summarizeMetrics).sentBatches =
      m.sentBatches ++ (m.summarizeResult).1.map (Batch.summaries m.nspace) := by
  refine ⟨?_, ?_, ?_, ?_, ?_, ?_⟩
  · intro r hr
    rw [summarizeResult_flatten, summarizeEntries_records] at hr
    simp only [List.nil_append] at hr
    obtain ⟨p, hp, hpr⟩ := List.mem_map.mp hr
    have hne : p.2.set.size ≠ 0 := of_decide_eq_true (List.mem_filter.mp hp).2
    rw [← hpr]
    simp only [datumOf, SummarySet.peek, SummarySet.size] at hne ⊢
    omega
  · intro p hp hz
    exact summarizeEntries_keeps_zero m.options.maxCapacity [] m._summaryData p hp hz
  · intro b hb
    have hbl := summarizeEntries_batch_lengths m.options.maxCapacity [] m._summaryData
      (by simpa using hcap)
    simp only [Metric.summarizeResult] at hb
    by_cases h0 : (summarizeEntries m.options.maxCapacity [] m._summaryData).2.2.length = 0
    · simp only [h0, if_true] at hb
      exact le_of_eq (hbl.1 b hb)
    · simp only [h0, if_false] at hb
      rcases List.mem_append.mp hb with hb | hb
      · exact le_of_eq (hbl.1 b hb)
      · rw [List.mem_singleton.mp hb]
        exact le_of_lt hbl.2
  · intro hall
    have hzero := summarizeEntries_all_zero m.options.maxCapacity [] m._summaryData hall
    simp [Metric.summarizeResult, hzero]
  · simp only [Metric._summarizeMetrics]
    exact (foldl_putSummaryMetrics _ _).2.1
  · simp only [Metric._summarizeMetrics]
    exact (foldl_putSummaryMetrics ({ m with _summaryData := (m.summarizeResult).2 })
      (m.summarizeResult).1).1

theorem summary_flush_batching_witness :
    0 < ((Metric.new "n" "Count" none none).summaryPut2 (JVal.num 2) "m").options.maxCapacity ∧
    ((∀ r ∈ (((Metric.new "n" "Count" none none).summaryPut2 (JVal.num 2) "m").summarizeResult).1.flatten,
        1 ≤ r.StatisticValues.SampleCount) ∧
      (∀ p ∈ ((Metric.new "n" "Count" none none).summaryPut2 (JVal.num 2) "m")._summaryData,
        p.2.set.size = 0 →
          p ∈ (((Metric.new "n" "Count" none none).summaryPut2 (JVal.num 2) "m").summarizeResult).2) ∧
      (∀ b ∈ (((Metric.new "n" "Count" none none).summaryPut2 (JVal.num 2) "m").summarizeResult).1,
        b.length ≤
          ((Metric.new "n" "Count" none none).summaryPut2 (JVal.num 2) "m").options.maxCapacity) ∧
      ((∀ p ∈ ((Metric.new "n" "Count" none none).summaryPut2 (JVal.num 2) "m")._summaryData,
          p.2.set.size = 0) →
        (((Metric.new "n" "Count" none none).summaryPut2 (JVal.num 2) "m").summarizeResult).1 = []) ∧
      (((Metric.new "n" "Count" none none).summaryPut2 (JVal.num 2) "m")._summarizeMetrics)._summaryData =
        (((Metric.new "n" "Count" none none).summaryPut2 (JVal.num 2) "m").summarizeResult).2 ∧
      (((Metric.new "n" "Count" none none).summaryPut2 (JVal.num 2) "m")._summarizeMetrics).sentBatches =
        ((Metric.new "n" "Count" none none).summaryPut2 (JVal.num 2) "m").sentBatches ++
          (((Metric.new "n" "Count" none none).summaryPut2 (JVal.num 2) "m").summarizeResult).1.map
            (Batch.summaries ((Metric.new "n" "Count" none none).summaryPut2 (JVal.num 2) "m").nspace)) :=
  ⟨by decide,
    summary_flush_batching ((Metric.new "n" "Count" none none).summaryPut2 (JVal.num 2) "m")
      (by decide)⟩

lemma mapGet_cons {α : Type} (p : String × α) (rest : List (String × α)) (k : String) :
    mapGet (p :: rest) k = if p.1 == k then some p.2 else mapGet rest k := by
  cases hbk : p.1 == k <;> simp [mapGet, List.find?, hbk]

lemma mapGet_of_not_mem {α : Type} (l : List (String × α)) (k : String)
    (h : ∀ p ∈ l, p.1 ≠ k) : mapGet l k = none := by
  induction l with
  | nil => rfl
  | cons p rest ih =>
      rw [mapGet_cons]
      have hp : ¬(p.1 == k) = true := by
        simpa using h p (List.mem_cons_self _ _)
      simp only [hp, if_false]
      exact ih fun q hq => h q (List.mem_cons_of_mem _ hq)

lemma mapGet_append_right {α : Type} (l : List (String × α)) (k : String) (v : α)
    (h : ∀ p ∈ l, p.1 ≠ k) : mapGet (l ++ [(k, v)]) k = some v := by
  induction l with
  | nil => simp [mapGet_cons]
  | cons p rest ih =>
      rw [List.cons_append, mapGet_cons]
      have hp : ¬(p.1 == k) = true := by
        simpa using h p (List.mem_cons_self _ _)
      simp only [hp, if_false]
      exact ih fun q hq => h q (List.mem_cons_of_mem _ hq)

lemma mapSet_not_mem {α : Type} (l : List (String × α)) (k : String) (v : α)
    (h : ∀ p ∈ l, p.1 ≠ k) : mapSet l k v = l ++ [(k, v)] := by
  induction l with
  | nil => rfl
  | cons p rest ih =>
      have hp : ¬(p.1 == k) = true := by
        simpa using h p (List.mem_cons_self _ _)
      simp only [mapSet, hp, if_false, List.cons_append]
      rw [ih fun q hq => h q (List.mem_cons_of_mem _ hq)]
      simp

lemma mapSet_append_right {α : Type} (l : List (String × α)) (k : String) (v w : α)
    (h : ∀ p ∈ l, p.1 ≠ k) : mapSet (l ++ [(k, v)]) k w = l ++ [(k, w)] := by
  induction l with
  | nil => simp [mapSet]
  | cons p rest ih =>
      have hp : ¬(p.1 == k) = true := by
        simpa using h p (List.mem_cons_self _ _)
      rw [List.cons_append, List.cons_append]
      simp only [mapSet, hp, if_false]
      rw [ih fun q hq => h q (List.mem_cons_of_mem _ hq)]
      simp

lemma Metric._summaryPut_immutable (m : Metric) (v : JVal) (n u : String)
    (ds : List Dimension) :
    (m._summaryPut v n u ds).nspace = m.nspace ∧
    (m._summaryPut v n u ds).units = m.units ∧
    (m._summaryPut v n u ds).defaultDimensions = m.defaultDimensions ∧
    (m._summaryPut v n u ds).options = m.options ∧
    (m._summaryPut v n u ds)._storedMetrics = m._storedMetrics ∧
    (m._summaryPut v n u ds)._interval = m._interval ∧
    (m._summaryPut v n u ds)._summaryInterval = m._summaryInterval ∧
    (m._summaryPut v n u ds).sentBatches = m.sentBatches := by
  simp only [Metric._summaryPut]
  cases mapGet m._summaryData (makeKey n u ds) <;>
    exact ⟨rfl, rfl, rfl, rfl, rfl, rfl, rfl, rfl⟩

lemma Metric._summaryPut_new (m : Metric) (v : JVal) (n u : String) (ds : List Dimension)
    (h : ∀ p ∈ m._summaryData, p.1 ≠ makeKey n u ds) :
    m._summaryPut v n u ds =
      { m with _summaryData := m._summaryData ++
          [(makeKey n u ds,
            { metricName := n, units := u,
              allDimensions := m.defaultDimensions ++ ds,
              set := SummarySet.mkDefault.put v })] } := by
  simp only [Metric._summaryPut]
  rw [mapGet_of_not_mem _ _ h, mapSet_not_mem _ _ _ h]

lemma Metric._summaryPut_existing_last (m : Metric) (v : JVal) (n u : String)
    (ds : List Dimension) (T : List (String × SummaryEntry)) (e : SummaryEntry)
    (hT : ∀ p ∈ T, p.1 ≠ makeKey n u ds)
    (hdata : m._summaryData = T ++ [(makeKey n u ds, e)]) :
    m._summaryPut v n u ds =
      { m with _summaryData := T ++ [(makeKey n u ds, { e with set := e.set.put v })] } := by
  simp only [Metric._summaryPut, hdata, mapGet_append_right _ _ _ hT]
  rw [mapSet_append_right _ _ _ _ hT]

/-- Claim C4: for every enabled Metric, after two `summaryPut` calls with
values `V1` then `V2` on the same identity (same metric name, unit and
additional-dimension list, an identity with no previous writes) the next
summary flush emits exactly one statistics record for that identity, with
`Minimum = min(V1,V2)`, `Maximum = max(V1,V2)`, `Sum = V1+V2`,
`SampleCount = 2` — and the flush dispatches those batches to the backend. -/
theorem summary_two_puts_statistics (m : Metric) (V1 V2 : ℚ) (name u : String)
    (dims : List Dimension)
    (hen : m.options.enabled = true)
    (hkey : ∀ p ∈ m._summaryData, p.1 ≠ makeKey name u dims)
    (hident : ∀ p ∈ m._summaryData,
      ¬(p.2.metricName = name ∧ p.2.units = u ∧
        p.2.allDimensions = m.defaultDimensions ++ dims)) :
    (((((m._summaryPut (JVal.num V1) name u dims)._summaryPut
          (JVal.num V2) name u dims).summarizeResult).1.flatten.filter
        (fun r => decide (r.MetricName = name ∧ r.Unit = u ∧
          r.Dimensions = m.defaultDimensions ++ dims))) =
      [{ MetricName := name, Dimensions := m.defaultDimensions ++ dims,
         StatisticValues :=
           { Minimum := JVal.num (min V1 V2), Maximum := JVal.num (max V1 V2),
             Sum := JVal.num (V1 + V2), SampleCount := 2 }, Unit := u }]) ∧
    (((m._summaryPut (JVal.num V1) name u dims)._summaryPut
        (JVal.num V2) name u dims)._summarizeMetrics).sentBatches =
      ((m._summaryPut (JVal.num V1) name u dims)._summaryPut
        (JVal.num V2) name u dims).sentBatches ++
        ((((m._summaryPut (JVal.num V1) name u dims)._summaryPut
            (JVal.num V2) name u dims).summarizeResult).1.map
          (Batch.summaries m.nspace)) := by
  have h1 := Metric._summaryPut_new m (JVal.num V1) name u dims hkey
  have h2 := Metric._summaryPut_existing_last (m._summaryPut (JVal.num V1) name u dims)
      (JVal.num V2) name u dims m._summaryData
      { metricName := name, units := u, allDimensions := m.defaultDimensions ++ dims,
        set := SummarySet.mkDefault.put (JVal.num V1) } hkey (by rw [h1])
  have hdata2 : ((m._summaryPut (JVal.num V1) name u dims)._summaryPut
      (JVal.num V2) name u dims)._summaryData =
      m._summaryData ++
        [(makeKey name u dims,
          { metricName := name, units := u,
            allDimensions := m.defaultDimensions ++ dims,
            set := (SummarySet.mkDefault.put (JVal.num V1)).put (JVal.num V2) })] := by
    rw [h2]
  have hTnil : ((m._summaryData.filter (fun p => decide (p.2.set.size ≠ 0))).map
      (fun p => datumOf p.2)).filter
        (fun r => decide (r.MetricName = name ∧ r.Unit = u ∧
          r.Dimensions = m.defaultDimensions ++ dims)) = [] := by
    rw [List.filter_eq_nil_iff]
    intro b hb
    obtain ⟨p, hpF, hfb⟩ := List.mem_map.mp hb
    have hpT := (List.mem_filter.mp hpF).1
    have hid := hident p hpT
    rw [← hfb]
    simp only [datumOf, decide_eq_true_eq]
    exact hid
  constructor
  · rw [summarizeResult_flatten, summarizeEntries_records, hdata2]
    simp only [List.nil_append]
    rw [List.filter_append, List.map_append, List.filter_append, hTnil]
    simp [datumOf, SummarySet.peek, SummarySet.put, SummarySet.size,
      SummarySet.mkDefault, SummarySet.new, SummarySet.reset, jmin, jmax, jadd]
  · have hns2 := (Metric._summaryPut_immutable (m._summaryPut (JVal.num V1) name u dims)
      (JVal.num V2) name u dims).1
    rw [(Metric._summaryPut_immutable m (JVal.num V1) name u dims).1] at hns2
    rw [← hns2]
    simp only [Metric._summarizeMetrics]
    exact (foldl_putSummaryMetrics _ _).1

theorem summary_two_puts_statistics_witness :
    (Metric.new "n" "Count" none none).options.enabled = true ∧
    (∀ p ∈ (Metric.new "n" "Count" none none)._summaryData, p.1 ≠ makeKey "m" "Count" []) ∧
    (∀ p ∈ (Metric.new "n" "Count" none none)._summaryData,
      ¬(p.2.metricName = "m" ∧ p.2.units = "Count" ∧
        p.2.allDimensions = (Metric.new "n" "Count" none none).defaultDimensions ++ [])) ∧
    ((((((Metric.new "n" "Count" none none)._summaryPut (JVal.num 12) "m" "Count"
          [])._summaryPut (JVal.num 13) "m" "Count" []).summarizeResult).1.flatten.filter
        (fun r => decide (r.MetricName = "m" ∧ r.Unit = "Count" ∧
          r.Dimensions = (Metric.new "n" "Count" none none).defaultDimensions ++ []))) =
      [{ MetricName := "m",
         Dimensions := (Metric.new "n" "Count" none none).defaultDimensions ++ [],
         StatisticValues :=
           { Minimum := JVal.num (min 12 13), Maximum := JVal.num (max 12 13),
             Sum := JVal.num (12 + 13), SampleCount := 2 }, Unit := "Count" }] ∧
      ((((Metric.new "n" "Count" none none)._summaryPut (JVal.num 12) "m" "Count"
          [])._summaryPut (JVal.num 13) "m" "Count" [])._summarizeMetrics).sentBatches =
        (((Metric.new "n" "Count" none none)._summaryPut (JVal.num 12) "m" "Count"
          [])._summaryPut (JVal.num 13) "m" "Count" []).sentBatches ++
          (((((Metric.new "n" "Count" none none)._summaryPut (JVal.num 12) "m" "Count"
              [])._summaryPut (JVal.num 13) "m" "Count" []).summarizeResult).1.map
            (Batch.summaries (Metric.new "n" "Count" none none).nspace))) :=
  ⟨by decide, by decide, by decide,
    summary_two_puts_statistics (Metric.new "n" "Count" none none) 12 13 "m" "Count" []
      (by decide) (by decide) (by decide)⟩

/-- A string with no NUL character — the assumption `makeKey` documents
("sane people won't put a null character in their metric name or dimension
name/value"). -/
def nulFree (s : String) : Prop := '\x00' ∉ s.data

instance (s : String) : Decidable (nulFree s) := by
  unfold nulFree
  infer_instance

lemma string_data_inj (s t : String) (h : s.data = t.data) : s = t := by
  cases s
  cases t
  exact congrArg String.mk (by simpa using h)

lemma nul_split (a : List Char) (b : List Char) (c d : List Char)
    (ha : '\x00' ∉ a) (hc : '\x00' ∉ c)
    (h : a ++ '\x00' :: b = c ++ '\x00' :: d) : a = c ∧ b = d := by
  induction a generalizing c with
  | nil =>
      cases c with
      | nil => simpa using h
      | cons y c' =>
          simp only [List.nil_append, List.cons_append] at h
          injection h with h1 h2
          subst h1
          exact absurd (List.mem_cons_self _ _) hc
  | cons x a' ih =>
      cases c with
      | nil =>
          simp only [List.cons_append, List.nil_append] at h
          injection h with h1 h2
          subst h1
          exact absurd (List.mem_cons_self _ _) ha
      | cons y c' =>
          simp only [List.cons_append] at h
          injection h with h1 h2
          have ha' : '\x00' ∉ a' := fun hm => ha (List.mem_cons_of_mem _ hm)
          have hc' : '\x00' ∉ c' := fun hm => hc (List.mem_cons_of_mem _ hm)
          obtain ⟨he, hb⟩ := ih c' ha' hc' h2
          exact ⟨by rw [h1, he], hb⟩

lemma makeKey_swap_ne (name u : String) (A B : Dimension)
    (hAB : A ≠ B)
    (hA1 : nulFree A.Name) (hA2 : nulFree A.Value)
    (hB1 : nulFree B.Name) (hB2 : nulFree B.Value) :
    makeKey name u [A, B] ≠ makeKey name u [B, A] := by
  intro h
  have hd := congrArg String.data h
  simp only [makeKey, List.foldl, String.data_append] at hd
  simp only [show ("\x00" : String).data = ['\x00'] from rfl, List.append_assoc,
    List.singleton_append] at hd
  have h1 := List.append_cancel_left hd
  injection h1 with h1a h1b
  have h2 := List.append_cancel_left h1b
  injection h2 with h2a h2b
  obtain ⟨hn, h3⟩ := nul_split A.Name.data _ B.Name.data _ hA1 hB1 h2b
  obtain ⟨hv, h4⟩ := nul_split A.Value.data _ B.Value.data _ hA2 hB2 h3
  apply hAB
  cases A with
  | mk an av =>
      cases B with
      | mk bn bv =>
          simp only at hn hv
          rw [string_data_inj an bn hn, string_data_inj av bv hv]

/-- Claim C7: two `summaryPut` calls with the same metric name and unit but
additional-dimension lists in opposite orders (`[A,B]` vs `[B,A]`, with
`A ≠ B` and NUL-free dimension strings, as `makeKey` assumes) map to distinct
summary-table keys and accumulate into two independent records, each with its
own aggregator holding exactly its own value. -/
theorem summary_dimension_order_independent (m : Metric) (name u : String)
    (A B : Dimension) (v1 v2 : ℚ)
    (hAB : A ≠ B)
    (hA1 : nulFree A.Name) (hA2 : nulFree A.Value)
    (hB1 : nulFree B.Name) (hB2 : nulFree B.Value)
    (hempty : m._summaryData = []) :
    makeKey name u [A, B] ≠ makeKey name u [B, A] ∧
    (((m._summaryPut (JVal.num v1) name u [A, B])._summaryPut
        (JVal.num v2) name u [B, A])._summaryData).map
        (fun p => (p.1, p.2.allDimensions, p.2.set.size, p.2.set._sum)) =
      [(makeKey name u [A, B], m.defaultDimensions ++ [A, B], 1, JVal.num v1),
       (makeKey name u [B, A], m.defaultDimensions ++ [B, A], 1, JVal.num v2)] := by
  have hne := makeKey_swap_ne name u A B hAB hA1 hA2 hB1 hB2
  have h1 := Metric._summaryPut_new m (JVal.num v1) name u [A, B]
    (by rw [hempty]; intro p hp; simp at hp)
  have h2 := Metric._summaryPut_new (m._summaryPut (JVal.num v1) name u [A, B])
    (JVal.num v2) name u [B, A]
    (by
      intro p hp
      rw [h1] at hp
      simp only [hempty, List.nil_append, List.mem_singleton] at hp
      rw [hp]
      exact hne)
  refine ⟨hne, ?_⟩
  rw [h2, h1]
  simp [hempty, SummarySet.size, SummarySet.put, SummarySet.mkDefault,
    SummarySet.new, SummarySet.reset, jadd]

theorem summary_dimension_order_independent_witness :
    (⟨"a", "1"⟩ : Dimension) ≠ (⟨"b", "2"⟩ : Dimension) ∧
    nulFree (⟨"a", "1"⟩ : Dimension).Name ∧ nulFree (⟨"a", "1"⟩ : Dimension).Value ∧
    nulFree (⟨"b", "2"⟩ : Dimension).Name ∧ nulFree (⟨"b", "2"⟩ : Dimension).Value ∧
    (Metric.new "n" "Count" none none)._summaryData = [] ∧
    (makeKey "m" "Count" [⟨"a", "1"⟩, ⟨"b", "2"⟩] ≠
        makeKey "m" "Count" [⟨"b", "2"⟩, ⟨"a", "1"⟩] ∧
      ((((Metric.new "n" "Count" none none)._summaryPut (JVal.num 12) "m" "Count"
            [⟨"a", "1"⟩, ⟨"b", "2"⟩])._summaryPut
          (JVal.num 13) "m" "Count" [⟨"b", "2"⟩, ⟨"a", "1"⟩])._summaryData).map
          (fun p => (p.1, p.2.allDimensions, p.2.set.size, p.2.set._sum)) =
        [(makeKey "m" "Count" [⟨"a", "1"⟩, ⟨"b", "2"⟩],
            (Metric.new "n" "Count" none none).defaultDimensions ++ [⟨"a", "1"⟩, ⟨"b", "2"⟩],
            1, JVal.num 12),
         (makeKey "m" "Count" [⟨"b", "2"⟩, ⟨"a", "1"⟩],
            (Metric.new "n" "Count" none none).defaultDimensions ++ [⟨"b", "2"⟩, ⟨"a", "1"⟩],
            1, JVal.num 13)]) :=
  ⟨by decide, by decide, by decide, by decide, by decide, by decide,
    summary_dimension_order_independent (Metric.new "n" "Count" none none) "m" "Count"
      ⟨"a", "1"⟩ ⟨"b", "2"⟩ 12 13
      (by decide) (by decide) (by decide) (by decide) (by decide) (by decide)⟩
